import Mathlib

/-!
Verification development for the response-writing and cookie layer of the
thinkgo web framework (the `Response` wrapper and the `Context` senders).

The embedding models:
* the HTTP header table as an association list with Go net/http
  `Get`/`Set`/`Add`/`Del` semantics (first-entry lookup),
* the `Response` wrapper state (status, size, committed flag, header map),
  together with an explicit `wire` trace recording what was handed to the
  underlying writer (status-line-plus-headers events and body-byte events)
  and a `warnings` trace recording log output,
* the `Context` senders (`Send`, `SetCookie`, `SetSecureCookie`, `JSON`,
  `JSONP`, `XML`, and friends) as state-passing functions; fallible senders
  return `Except String Context`, and every `Except.error` in the source is
  returned before any state mutation, so an error result leaves the caller's
  state unchanged by construction.

External collaborators that live outside the modelled file (the
accept-encoding negotiator, the pre-commit hook, JSON/XML marshaling, the
clock, HMAC-SHA1, `template.JSEscapeString`, RFC1123 time formatting) are
carried as function-valued fields of `Context` or explicit arguments,
following the spec's description of them as external interfaces.
-/

set_option linter.unusedVariables false

/-- Modelled from the spec: the repository's header-name constant for the
`Set-Cookie` header (the constants table is outside the modelled file). -/
def HeaderSetCookie : String := "Set-Cookie"

/-- Modelled from the spec: header-name constant for `Content-Encoding`. -/
def HeaderContentEncoding : String := "Content-Encoding"

/-- Modelled from the spec: header-name constant for `Content-Length`. -/
def HeaderContentLength : String := "Content-Length"

/-- Modelled from the spec: header-name constant for `Content-Type`. -/
def HeaderContentType : String := "Content-Type"

/-- Modelled from the spec: MIME constant for JSON responses. -/
def MIMEApplicationJSONCharsetUTF8 : String := "application/json; charset=utf-8"

/-- Modelled from the spec: MIME constant for JSONP responses. -/
def MIMEApplicationJavaScriptCharsetUTF8 : String := "application/javascript; charset=utf-8"

/-- Modelled from the spec: MIME constant for XML responses. -/
def MIMEApplicationXMLCharsetUTF8 : String := "application/xml; charset=utf-8"

/-- The standard XML declaration prepended by `XMLBlob` (Go `xml.Header`). -/
def xmlHeader : String := "<?xml version=\"1.0\" encoding=\"UTF-8\"?>\n"

/-- The warning and error text used by the double-commit guard. -/
def warnMsg : String := "multiple response.WriteHeader calls"

/-- Lookup of the value list of the first entry whose key matches, mirroring
Go `textproto.MIMEHeader` map access (keys are unique in reachable states). -/
def getAllEntries : List (String × List String) → String → List String
  | [], _ => []
  | e :: t, k => if e.fst == k then e.snd else getAllEntries t k

/-- Go `Header.Set`: replace the value list of the key with a singleton. -/
def setEntries : List (String × List String) → String → String → List (String × List String)
  | [], k, v => [(k, [v])]
  | e :: t, k, v => if e.fst == k then (k, [v]) :: t else e :: setEntries t k v

/-- Go `Header.Add`: append the value to the key's value list. -/
def addEntries : List (String × List String) → String → String → List (String × List String)
  | [], k, v => [(k, [v])]
  | e :: t, k, v => if e.fst == k then (e.fst, e.snd ++ [v]) :: t else e :: addEntries t k v

/-- The mutable response header table (Go `http.Header`). -/
structure HttpHeader where
  entries : List (String × List String)
deriving DecidableEq

/-- All values stored under a key (Go `header[k]`). -/
def HttpHeader.getAll (h : HttpHeader) (k : String) : List String :=
  getAllEntries h.entries k

/-- Go `Header.Get`: first value under the key, or the empty string. -/
def HttpHeader.get (h : HttpHeader) (k : String) : String :=
  match h.getAll k with
  | [] => ""
  | v :: _ => v

/-- Go `Header.Set`. -/
def HttpHeader.set (h : HttpHeader) (k v : String) : HttpHeader :=
  ⟨setEntries h.entries k v⟩

/-- Go `Header.Add`. -/
def HttpHeader.add (h : HttpHeader) (k v : String) : HttpHeader :=
  ⟨addEntries h.entries k v⟩

/-- Go `Header.Del`. -/
def HttpHeader.del (h : HttpHeader) (k : String) : HttpHeader :=
  ⟨h.entries.filter (fun e => !(e.fst == k))⟩

/-- One event handed to the underlying `http.ResponseWriter`: either the
status line together with the header snapshot sent at commit time, or a
chunk of body bytes. -/
inductive WireEvent where
  | head : Int → HttpHeader → WireEvent
  | body : List Nat → WireEvent
deriving DecidableEq

/-- The `Response` wrapper state (source struct `Response`): stored status,
cumulative size, commit flag and header table, plus the observable `wire`
and `warnings` traces standing for the underlying writer and the logger. -/
structure Response where
  status : Int
  size : Int
  committed : Bool
  headers : HttpHeader
  wire : List WireEvent
  warnings : List String
deriving DecidableEq

/-- Source `Response.WriteHeader`: on an already-committed response, log a
warning and return unchanged; otherwise store the status, apply the
pre-commit hook (source `ctx.beforeWriteHeader()`, passed in as a function),
send status line and headers to the writer, and mark committed. -/
def Response.WriteHeader (hook : HttpHeader → HttpHeader) (resp : Response) (status : Int) :
    Response :=
  if resp.committed then
    { resp with warnings := resp.warnings ++ [warnMsg] }
  else
    let h := hook resp.headers
    { resp with
      status := status
      headers := h
      wire := resp.wire ++ [WireEvent.head status h]
      committed := true }

/-- Source `Response.Write`: forward the bytes to the underlying writer and
accumulate the size by the bytes written. -/
def Response.Write (resp : Response) (b : List Nat) : Response :=
  { resp with size := resp.size + (b.length : Int), wire := resp.wire ++ [WireEvent.body b] }

/-- Source `Response.AddCookie`: adds a `Set-Cookie` header value (the
stdlib `cookie.String()` serialization is taken as the given string). -/
def Response.AddCookie (resp : Response) (s : String) : Response :=
  { resp with headers := resp.headers.add HeaderSetCookie s }

/-- Source `Response.SetCookie`: replaces the `Set-Cookie` header value. -/
def Response.SetCookie (resp : Response) (s : String) : Response :=
  { resp with headers := resp.headers.set HeaderSetCookie s }

/-- Source `Response.DelCookie`: removes the `Set-Cookie` header. -/
def Response.DelCookie (resp : Response) : Response :=
  { resp with headers := resp.headers.del HeaderSetCookie }

/-- The request context, restricted to what the modelled senders read.
`W` is the wrapped response. The remaining fields model external
collaborators named by the spec: `reqEncoding` is the result of
`acceptencoder.ParseEncoding(ctx.R)` on this request; `writeBody` is
`acceptencoder.WriteBody`, returning (applied, encoding name, buffer
contents); `hook` is the `beforeWriteHeader` pre-commit hook that injects
last-moment headers; `expiresStr` renders `time.Now().Add(maxAge)` in
RFC1123 UTC; `nowNano` is `time.Now().UnixNano()`; `hmacSha1` is the
HMAC-SHA1 primitive over key and message bytes; `jsEscape` is
`template.JSEscapeString`. -/
structure Context where
  W : Response
  enableGzip : Bool
  runModeProd : Bool
  reqEncoding : String
  writeBody : String → List Nat → Bool × String × List Nat
  hook : HttpHeader → HttpHeader
  expiresStr : Int → String
  nowNano : Int
  hmacSha1 : List Nat → List Nat → List Nat
  jsEscape : String → String

/-- Source `Context.Send`: the guarded write path. Fails if already
committed; otherwise, when no `Content-Encoding` is set and compression is
enabled and the negotiator applies an encoding, set `Content-Encoding`,
commit, and stream the compressed buffer; otherwise fill in a missing
`Content-Length` from the content length, commit, and write the content. -/
def Context.Send (ctx : Context) (status : Int) (content : List Nat) : Except String Context :=
  if ctx.W.committed then
    Except.error warnMsg
  else
    if ctx.W.headers.get HeaderContentEncoding = "" then
      let gz : Option (String × List Nat) :=
        if ctx.enableGzip then
          let res := ctx.writeBody ctx.reqEncoding content
          if res.fst then some res.snd else none
        else none
      match gz with
      | some p =>
        let ctxA : Context :=
          { ctx with W := { ctx.W with headers := ctx.W.headers.set HeaderContentEncoding p.fst } }
        let ctxB : Context := { ctxA with W := Response.WriteHeader ctxA.hook ctxA.W status }
        Except.ok { ctxB with W := Response.Write ctxB.W p.snd }
      | none =>
        let ctxA : Context :=
          if ctx.W.headers.get HeaderContentLength = "" then
            { ctx with W := { ctx.W with
                headers := ctx.W.headers.set HeaderContentLength (toString content.length) } }
          else ctx
        let ctxB : Context := { ctxA with W := Response.WriteHeader ctxA.hook ctxA.W status }
        Except.ok { ctxB with W := Response.Write ctxB.W content }
    else
      let ctxB : Context := { ctx with W := Response.WriteHeader ctx.hook ctx.W status }
      Except.ok { ctxB with W := Response.Write ctxB.W content }

/-- Character-level form of the source `cookieNameSanitizer`
(`strings.NewReplacer` with the single-character patterns LF and CR,
each replaced by a dash). -/
def sanitizeNameChar (c : Char) : Char :=
  if c = '\n' ∨ c = '\r' then '-' else c

/-- Source `sanitizeName`. -/
def sanitizeName (n : String) : String :=
  String.mk (n.data.map sanitizeNameChar)

/-- Character-level form of the source `cookieValueSanitizer`
(`strings.NewReplacer` replacing LF, CR and semicolon by a space). -/
def sanitizeValueChar (c : Char) : Char :=
  if c = '\n' ∨ c = '\r' ∨ c = ';' then ' ' else c

/-- Source `sanitizeValue`. -/
def sanitizeValue (v : String) : String :=
  String.mk (v.data.map sanitizeValueChar)

/-- One positional variadic argument of `Context.SetCookie`
(Go `...interface{}`): a signed integer (covering int, int32, int64),
a string, a boolean, a nil, or a value of any other dynamic type. -/
inductive CookieAttr where
  | int : Int → CookieAttr
  | str : String → CookieAttr
  | bool : Bool → CookieAttr
  | nil : CookieAttr
  | other : CookieAttr
deriving DecidableEq

/-- The max-age extracted from the first variadic argument by the source's
type switch: int-like values pass through, everything else yields 0. -/
def cookieMaxAge (others : List CookieAttr) : Int :=
  match others[0]? with
  | some (CookieAttr.int v) => v
  | _ => 0

/-- The `Expires`/`Max-Age` fragment appended by `Context.SetCookie` when at
least one variadic argument is present. -/
def cookieMaxAgePart (ctx : Context) (others : List CookieAttr) : String :=
  if 0 < others.length then
    let maxAge := cookieMaxAge others
    if 0 < maxAge then
      "; Expires=" ++ ctx.expiresStr maxAge ++ "; Max-Age=" ++ toString maxAge
    else if maxAge < 0 then "; Max-Age=0"
    else ""
  else ""

/-- The `Path` fragment appended by `Context.SetCookie`: an explicit
sanitized path when the second variadic argument is a non-empty string, no
fragment at all when it is present but empty or not a string, and the
default `/` when fewer than two variadic arguments were given. -/
def cookiePathPart (others : List CookieAttr) : String :=
  if 1 < others.length then
    match others[1]? with
    | some (CookieAttr.str v) => if 0 < v.length then "; Path=" ++ sanitizeValue v else ""
    | _ => ""
  else "; Path=/"

/-- The `Domain` fragment appended by `Context.SetCookie`. -/
def cookieDomainPart (others : List CookieAttr) : String :=
  if 2 < others.length then
    match others[2]? with
    | some (CookieAttr.str v) => if 0 < v.length then "; Domain=" ++ sanitizeValue v else ""
    | _ => ""
  else ""

/-- The secure flag extracted from the fourth variadic argument by the
source's type switch: a boolean argument is taken as given and any other
non-nil argument counts as true. -/
def cookieSecure (others : List CookieAttr) : Bool :=
  match others[3]? with
  | some (CookieAttr.bool v) => v
  | some CookieAttr.nil => false
  | some _ => true
  | none => false

/-- The `Secure` fragment appended by `Context.SetCookie`. -/
def cookieSecurePart (others : List CookieAttr) : String :=
  if 3 < others.length then
    if cookieSecure others then "; Secure" else ""
  else ""

/-- The `HttpOnly` fragment appended by `Context.SetCookie`: emitted only
when the fifth variadic argument is the boolean true. -/
def cookieHttpOnlyPart (others : List CookieAttr) : String :=
  if 4 < others.length then
    match others[4]? with
    | some (CookieAttr.bool true) => "; HttpOnly"
    | _ => ""
  else ""

/-- The full `Set-Cookie` header value built by `Context.SetCookie`:
sanitized `name=value` followed by the sequentially appended attribute
fragments. -/
def cookieString (ctx : Context) (name value : String) (others : List CookieAttr) : String :=
  sanitizeName name ++ "=" ++ sanitizeValue value ++ cookieMaxAgePart ctx others
    ++ cookiePathPart others ++ cookieDomainPart others ++ cookieSecurePart others
    ++ cookieHttpOnlyPart others

/-- Source `Context.SetCookie`: build the cookie string and add it as one
more `Set-Cookie` header value. -/
def Context.SetCookie (ctx : Context) (name value : String) (others : List CookieAttr) :
    Context :=
  { ctx with W := { ctx.W with
      headers := ctx.W.headers.add HeaderSetCookie (cookieString ctx name value others) } }

/-- Concatenation of a list of byte lists. -/
def concatAll : List (List Nat) → List Nat
  | [] => []
  | a :: t => a ++ concatAll t

/-- UTF-8 encoding of one character (the Go `[]byte(string)` view). -/
def utf8EncodeChar (c : Char) : List Nat :=
  let n := c.toNat
  if n < 128 then [n]
  else if n < 2048 then [192 + n / 64, 128 + n % 64]
  else if n < 65536 then [224 + n / 4096, 128 + n / 64 % 64, 128 + n % 64]
  else [240 + n / 262144, 128 + n / 4096 % 64, 128 + n / 64 % 64, 128 + n % 64]

/-- UTF-8 encoding of a string, as Go `[]byte(s)`. -/
def utf8Encode (s : String) : List Nat :=
  concatAll (s.data.map utf8EncodeChar)

/-- The base64url alphabet used by Go `base64.URLEncoding`. -/
def b64Alphabet : List Char :=
  "ABCDEFGHIJKLMNOPQRSTUVWXYZabcdefghijklmnopqrstuvwxyz0123456789-_".data

/-- The base64url digit for a 6-bit group. -/
def b64CharOf (n : Nat) : Char :=
  b64Alphabet.getD n 'A'

/-- Base64 encoding of byte triples with `=` padding, as Go
`base64.URLEncoding.EncodeToString`. -/
def base64Chunks : List Nat → List Char
  | a :: b :: c :: rest =>
    let x := a * 65536 + b * 256 + c
    b64CharOf (x / 262144 % 64) :: b64CharOf (x / 4096 % 64) :: b64CharOf (x / 64 % 64)
      :: b64CharOf (x % 64) :: base64Chunks rest
  | [a, b] =>
    let x := a * 1024 + b * 4
    [b64CharOf (x / 4096 % 64), b64CharOf (x / 64 % 64), b64CharOf (x % 64), '=']
  | [a] =>
    let x := a * 16
    [b64CharOf (x / 64 % 64), b64CharOf (x % 64), '=', '=']
  | [] => []

/-- Go `base64.URLEncoding.EncodeToString`. -/
def base64URLEncode (bs : List Nat) : String :=
  String.mk (base64Chunks bs)

/-- The lowercase hex digit for a 4-bit group. -/
def hexDigitChar (n : Nat) : Char :=
  "0123456789abcdef".data.getD n '0'

/-- Two lowercase hex digits of one byte (Go `%02x` per byte). -/
def hexByte (b : Nat) : List Char :=
  [hexDigitChar (b / 16 % 16), hexDigitChar (b % 16)]

/-- Lowercase hex rendering of a byte slice (Go `fmt.Sprintf` with `%02x`
applied to a byte slice). -/
def hexDigest (bs : List Nat) : String :=
  String.mk (bs.foldr (fun b acc => hexByte b ++ acc) [])

/-- Source `Context.SetSecureCookie`: base64url-encode the value, render the
nanosecond timestamp in decimal, sign `encoded ++ timestamp` with HMAC-SHA1
under the secret, render the signature in lowercase hex, join the three
parts with a pipe (Go `strings.Join` on a three-element slice), and delegate
to `Context.SetCookie`. -/
def Context.SetSecureCookie (ctx : Context) (secret name value : String)
    (others : List CookieAttr) : Context :=
  let vs := base64URLEncode (utf8Encode value)
  let timestamp := toString ctx.nowNano
  let sig := hexDigest (ctx.hmacSha1 (utf8Encode secret) (utf8Encode (vs ++ timestamp)))
  let cookie := vs ++ "|" ++ timestamp ++ "|" ++ sig
  Context.SetCookie ctx name cookie others

/-- Modelled from the spec: the `encoding/json` or `encoding/xml` marshaling
collaborator for one data type, with the plain and the indented entry points;
a marshal failure is the Go error text. -/
structure Marshaller (α : Type) where
  marshal : α → Except String (List Nat)
  marshalIndent : α → String → String → Except String (List Nat)

/-- Source `Context.JSONBlob`: set the JSON content type and send. -/
def Context.JSONBlob (ctx : Context) (status : Int) (b : List Nat) : Except String Context :=
  Context.Send
    { ctx with W := { ctx.W with
        headers := ctx.W.headers.set HeaderContentType MIMEApplicationJSONCharsetUTF8 } }
    status b

/-- Source `Context.JSON`: marshal compactly in production run-mode and with
two-space indentation otherwise, propagate a marshal error, else delegate to
`JSONBlob`. -/
def Context.JSON {α : Type} (ctx : Context) (jm : Marshaller α) (status : Int) (data : α) :
    Except String Context :=
  match (if ctx.runModeProd then jm.marshal data else jm.marshalIndent data "" "  ") with
  | Except.error e => Except.error e
  | Except.ok b => Context.JSONBlob ctx status b

/-- Source `Context.JSONP`: marshal in the same dual mode, propagate a
marshal error, else set the JavaScript content type, JS-escape the callback
and send the guarded callback wrapper around the payload. -/
def Context.JSONP {α : Type} (ctx : Context) (jm : Marshaller α) (status : Int)
    (callback : String) (data : α) : Except String Context :=
  match (if ctx.runModeProd then jm.marshal data else jm.marshalIndent data "" "  ") with
  | Except.error e => Except.error e
  | Except.ok b =>
    let ctxA : Context :=
      { ctx with W := { ctx.W with
          headers := ctx.W.headers.set HeaderContentType MIMEApplicationJavaScriptCharsetUTF8 } }
    let cb := ctx.jsEscape callback
    Context.Send ctxA status
      (utf8Encode (" if(window." ++ cb ++ ")" ++ cb ++ "(") ++ b ++ utf8Encode (");\r\n"))

/-- Source `Context.XMLBlob`: set the XML content type and send the standard
XML declaration followed by the payload. -/
def Context.XMLBlob (ctx : Context) (status : Int) (b : List Nat) : Except String Context :=
  Context.Send
    { ctx with W := { ctx.W with
        headers := ctx.W.headers.set HeaderContentType MIMEApplicationXMLCharsetUTF8 } }
    status (utf8Encode xmlHeader ++ b)

/-- Source `Context.XML`: marshal in the same dual mode, propagate a marshal
error, else delegate to `XMLBlob`. -/
def Context.XML {α : Type} (ctx : Context) (xm : Marshaller α) (status : Int) (data : α) :
    Except String Context :=
  match (if ctx.runModeProd then xm.marshal data else xm.marshalIndent data "" "  ") with
  | Except.error e => Except.error e
  | Except.ok b => Context.XMLBlob ctx status b

/-- Byte-level prefix test used by the substring check below. -/
def isPrefixOfB : List Char → List Char → Bool
  | [], _ => true
  | _ :: _, [] => false
  | a :: as, b :: bs => a = b && isPrefixOfB as bs

/-- Whether the needle occurs contiguously inside the haystack. -/
def containsSubList (hay needle : List Char) : Bool :=
  match hay with
  | [] => isPrefixOfB needle []
  | _ :: t => isPrefixOfB needle hay || containsSubList t needle

/-- Whether the needle string occurs contiguously inside the haystack
string. -/
def strContainsSub (hay needle : String) : Bool :=
  containsSubList hay.data needle.data

/-- An empty response state, as produced for a fresh request. -/
def respEmpty : Response :=
  { status := 0, size := 0, committed := false, headers := ⟨[]⟩, wire := [], warnings := [] }

/-- A concrete context over the empty response with trivial collaborators,
used to instantiate universally quantified results. -/
def ctx0 : Context :=
  { W := respEmpty
    enableGzip := false
    runModeProd := false
    reqEncoding := ""
    writeBody := fun _ c => (false, "", c)
    hook := id
    expiresStr := fun _ => ""
    nowNano := 0
    hmacSha1 := fun _ _ => []
    jsEscape := id }

/-- A concrete context whose negotiator applies the gzip encoding and
produces the fixed compressed buffer `[1, 2]`. -/
def ctxGz : Context :=
  { ctx0 with enableGzip := true, writeBody := fun _ _ => (true, "gzip", [1, 2]) }

/-- A concrete marshaling collaborator that always fails with the error
text `boom`. -/
def mFail : Marshaller Nat :=
  { marshal := fun _ => Except.error "boom"
    marshalIndent := fun _ _ _ => Except.error "boom" }

/-- A concrete marshaling collaborator that always produces the single
byte 49 (the digit one). -/
def mOk : Marshaller Nat :=
  { marshal := fun _ => Except.ok [49]
    marshalIndent := fun _ _ _ => Except.ok [49] }

theorem getAllEntries_addEntries_self (l : List (String × List String)) (k v : String) :
    getAllEntries (addEntries l k v) k = getAllEntries l k ++ [v] := by
  induction l with
  | nil => simp [addEntries, getAllEntries]
  | cons e t ih =>
    by_cases hk : e.fst = k
    · simp [addEntries, getAllEntries, hk]
    · simp [addEntries, getAllEntries, hk, ih]

theorem getAllEntries_addEntries_ne (l : List (String × List String)) (k k' v : String)
    (hne : k' ≠ k) :
    getAllEntries (addEntries l k v) k' = getAllEntries l k' := by
  have hne' : ¬(k = k') := fun h => hne h.symm
  induction l with
  | nil => simp [addEntries, getAllEntries, hne']
  | cons e t ih =>
    by_cases hk : e.fst = k
    · simp [addEntries, getAllEntries, hk, hne']
    · by_cases hk' : e.fst = k'
      · simp [addEntries, getAllEntries, hk, hk', hne]
      · simp [addEntries, getAllEntries, hk, hk', ih]

theorem getAllEntries_setEntries_self (l : List (String × List String)) (k v : String) :
    getAllEntries (setEntries l k v) k = [v] := by
  induction l with
  | nil => simp [setEntries, getAllEntries]
  | cons e t ih =>
    by_cases hk : e.fst = k
    · simp [setEntries, getAllEntries, hk]
    · simp [setEntries, getAllEntries, hk, ih]

theorem getAllEntries_setEntries_ne (l : List (String × List String)) (k k' v : String)
    (hne : k' ≠ k) :
    getAllEntries (setEntries l k v) k' = getAllEntries l k' := by
  have hne' : ¬(k = k') := fun h => hne h.symm
  induction l with
  | nil => simp [setEntries, getAllEntries, hne']
  | cons e t ih =>
    by_cases hk : e.fst = k
    · simp [setEntries, getAllEntries, hk, hne']
    · by_cases hk' : e.fst = k'
      · simp [setEntries, getAllEntries, hk, hk', hne]
      · simp [setEntries, getAllEntries, hk, hk', ih]

theorem getAllEntries_filter_self (l : List (String × List String)) (k : String) :
    getAllEntries (l.filter (fun e => !(e.fst == k))) k = [] := by
  induction l with
  | nil => simp [getAllEntries]
  | cons e t ih =>
    by_cases hk : e.fst = k
    · have hb : (!(e.fst == k)) = false := by simp [hk]
      simp [List.filter_cons, hb, ih]
    · have hb : (!(e.fst == k)) = true := by simp [hk]
      simp [List.filter_cons, hb, getAllEntries, hk, ih]

theorem HttpHeader.getAll_add_self (h : HttpHeader) (k v : String) :
    (h.add k v).getAll k = h.getAll k ++ [v] :=
  getAllEntries_addEntries_self h.entries k v

theorem HttpHeader.getAll_add_ne (h : HttpHeader) (k k' v : String) (hne : k' ≠ k) :
    (h.add k v).getAll k' = h.getAll k' :=
  getAllEntries_addEntries_ne h.entries k k' v hne

theorem HttpHeader.getAll_set_self (h : HttpHeader) (k v : String) :
    (h.set k v).getAll k = [v] :=
  getAllEntries_setEntries_self h.entries k v

theorem HttpHeader.getAll_set_ne (h : HttpHeader) (k k' v : String) (hne : k' ≠ k) :
    (h.set k v).getAll k' = h.getAll k' :=
  getAllEntries_setEntries_ne h.entries k k' v hne

theorem HttpHeader.getAll_del_self (h : HttpHeader) (k : String) :
    (h.del k).getAll k = [] :=
  getAllEntries_filter_self h.entries k

theorem HttpHeader.get_set_self (h : HttpHeader) (k v : String) :
    (h.set k v).get k = v := by
  simp [HttpHeader.get, HttpHeader.getAll_set_self]

theorem HttpHeader.get_set_ne (h : HttpHeader) (k k' v : String) (hne : k' ≠ k) :
    (h.set k v).get k' = h.get k' := by
  unfold HttpHeader.get
  rw [HttpHeader.getAll_set_ne h k k' v hne]

theorem Response.WriteHeader_of_committed (hk : HttpHeader → HttpHeader) (resp : Response)
    (s : Int) (hr : resp.committed = true) :
    Response.WriteHeader hk resp s = { resp with warnings := resp.warnings ++ [warnMsg] } := by
  simp [Response.WriteHeader, hr]

theorem Response.WriteHeader_committed (hk : HttpHeader → HttpHeader) (resp : Response)
    (s : Int) (hr : resp.committed = false) :
    (Response.WriteHeader hk resp s).committed = true := by
  simp [Response.WriteHeader, hr]

theorem Context.Send_of_committed (ctx : Context) (s : Int) (c : List Nat)
    (hr : ctx.W.committed = true) :
    Context.Send ctx s c = Except.error warnMsg := by
  simp [Context.Send, hr]

theorem Context.Send_ok_of_uncommitted (ctx : Context) (s : Int) (c : List Nat)
    (hr : ctx.W.committed = false) :
    ∃ ctx1, Context.Send ctx s c = Except.ok ctx1 ∧ ctx1.W.committed = true := by
  unfold Context.Send
  rw [hr]
  simp only [Bool.false_eq_true, if_false]
  by_cases hce : ctx.W.headers.get HeaderContentEncoding = ""
  · rw [if_pos hce]
    by_cases hgz : ctx.enableGzip
    · simp only [hgz, if_true]
      by_cases hb : (ctx.writeBody ctx.reqEncoding c).fst
      · simp only [hb, if_true]
        exact ⟨_, rfl, by simp [Response.Write, Response.WriteHeader, hr]⟩
      · simp only [hb, Bool.false_eq_true, if_false]
        by_cases hcl : ctx.W.headers.get HeaderContentLength = ""
        · exact ⟨_, rfl, by simp [Response.Write, Response.WriteHeader, hr, hcl]⟩
        · exact ⟨_, rfl, by simp [Response.Write, Response.WriteHeader, hr, hcl]⟩
    · simp only [Bool.not_eq_true] at hgz
      simp only [hgz, Bool.false_eq_true, if_false]
      by_cases hcl : ctx.W.headers.get HeaderContentLength = ""
      · exact ⟨_, rfl, by simp [Response.Write, Response.WriteHeader, hr, hcl]⟩
      · exact ⟨_, rfl, by simp [Response.Write, Response.WriteHeader, hr, hcl]⟩
  · rw [if_neg hce]
    exact ⟨_, rfl, by simp [Response.Write, Response.WriteHeader, hr]⟩

/-- C1: for every response state and every sequence of two commit-causing
calls (`WriteHeader` or `Send` in any combination), the first call commits,
and the second call produces no wire output: a second `WriteHeader` only
logs a warning, leaving status, headers and wire trace unchanged, and a
second `Send` returns the explicit double-commit error before writing
anything. -/
theorem C1_second_commit_call_is_noop (ctx : Context) (s1 s2 : Int) (c1 c2 : List Nat)
    (h : ctx.W.committed = false) :
    ((Response.WriteHeader ctx.hook ctx.W s1).committed = true
      ∧ Response.WriteHeader ctx.hook (Response.WriteHeader ctx.hook ctx.W s1) s2
          = { Response.WriteHeader ctx.hook ctx.W s1 with
              warnings := (Response.WriteHeader ctx.hook ctx.W s1).warnings ++ [warnMsg] }
      ∧ Context.Send { ctx with W := Response.WriteHeader ctx.hook ctx.W s1 } s2 c2
          = Except.error warnMsg)
    ∧ (∃ ctx1, Context.Send ctx s1 c1 = Except.ok ctx1
        ∧ ctx1.W.committed = true
        ∧ Response.WriteHeader ctx1.hook ctx1.W s2
            = { ctx1.W with warnings := ctx1.W.warnings ++ [warnMsg] }
        ∧ Context.Send ctx1 s2 c2 = Except.error warnMsg) := by
  have h1 : (Response.WriteHeader ctx.hook ctx.W s1).committed = true :=
    Response.WriteHeader_committed ctx.hook ctx.W s1 h
  refine ⟨⟨h1, Response.WriteHeader_of_committed _ _ _ h1,
    Context.Send_of_committed _ _ _ h1⟩, ?_⟩
  obtain ⟨ctx1, hok, hc⟩ := Context.Send_ok_of_uncommitted ctx s1 c1 h
  exact ⟨ctx1, hok, hc, Response.WriteHeader_of_committed _ _ _ hc,
    Context.Send_of_committed _ _ _ hc⟩

/-- Witness for C1 at a concrete uncommitted context. -/
theorem C1_second_commit_call_is_noop_witness :
    (Response.WriteHeader ctx0.hook ctx0.W 200).committed = true
    ∧ Context.Send { ctx0 with W := Response.WriteHeader ctx0.hook ctx0.W 200 } 404 [2]
        = Except.error warnMsg := by
  have h := C1_second_commit_call_is_noop ctx0 200 404 [1] [2] rfl
  exact ⟨h.1.1, h.1.2.2⟩

/-- C2: on an uncommitted response with no `Content-Encoding` set,
compression enabled and a negotiated encoding applied, `Send` sets
`Content-Encoding` to the negotiated name, commits headers with the given
status, streams the compressed buffer, and leaves `Content-Length` exactly
as it was (it never computes one in this branch). -/
theorem C2_compressed_send_sets_encoding_not_length (ctx : Context) (status : Int)
    (content : List Nat)
    (h1 : ctx.W.committed = false)
    (h2 : ctx.W.headers.get HeaderContentEncoding = "")
    (h3 : ctx.enableGzip = true)
    (h4 : (ctx.writeBody ctx.reqEncoding content).fst = true) :
    ∃ ctx1,
      Context.Send ctx status content = Except.ok ctx1
      ∧ ctx1.W.committed = true
      ∧ ctx1.W.status = status
      ∧ ctx1.W.headers
          = ctx.hook (ctx.W.headers.set HeaderContentEncoding
              (ctx.writeBody ctx.reqEncoding content).snd.fst)
      ∧ ctx1.W.wire
          = ctx.W.wire
            ++ [WireEvent.head status (ctx.hook (ctx.W.headers.set HeaderContentEncoding
                  (ctx.writeBody ctx.reqEncoding content).snd.fst)),
                WireEvent.body (ctx.writeBody ctx.reqEncoding content).snd.snd]
      ∧ (ctx.W.headers.set HeaderContentEncoding
            (ctx.writeBody ctx.reqEncoding content).snd.fst).get HeaderContentEncoding
          = (ctx.writeBody ctx.reqEncoding content).snd.fst
      ∧ (ctx.W.headers.set HeaderContentEncoding
            (ctx.writeBody ctx.reqEncoding content).snd.fst).get HeaderContentLength
          = ctx.W.headers.get HeaderContentLength := by
  unfold Context.Send
  rw [h1]
  simp only [Bool.false_eq_true, if_false, if_pos h2, h3, if_true, h4]
  refine ⟨_, rfl, ?_, ?_, ?_, ?_, ?_, ?_⟩
  · simp [Response.Write, Response.WriteHeader, h1]
  · simp [Response.Write, Response.WriteHeader, h1]
  · simp [Response.Write, Response.WriteHeader, h1]
  · simp [Response.Write, Response.WriteHeader, h1]
  · exact HttpHeader.get_set_self _ _ _
  · exact HttpHeader.get_set_ne _ _ _ _ (by decide)

/-- Witness for C2 at a concrete context whose negotiator compresses. -/
theorem C2_compressed_send_sets_encoding_not_length_witness :
    ∃ ctx1,
      Context.Send ctxGz 200 [7] = Except.ok ctx1
      ∧ ctx1.W.committed = true
      ∧ ctx1.W.status = 200
      ∧ ctx1.W.headers
          = ctxGz.hook (ctxGz.W.headers.set HeaderContentEncoding
              (ctxGz.writeBody ctxGz.reqEncoding [7]).snd.fst)
      ∧ ctx1.W.wire
          = ctxGz.W.wire
            ++ [WireEvent.head 200 (ctxGz.hook (ctxGz.W.headers.set HeaderContentEncoding
                  (ctxGz.writeBody ctxGz.reqEncoding [7]).snd.fst)),
                WireEvent.body (ctxGz.writeBody ctxGz.reqEncoding [7]).snd.snd]
      ∧ (ctxGz.W.headers.set HeaderContentEncoding
            (ctxGz.writeBody ctxGz.reqEncoding [7]).snd.fst).get HeaderContentEncoding
          = (ctxGz.writeBody ctxGz.reqEncoding [7]).snd.fst
      ∧ (ctxGz.W.headers.set HeaderContentEncoding
            (ctxGz.writeBody ctxGz.reqEncoding [7]).snd.fst).get HeaderContentLength
          = ctxGz.W.headers.get HeaderContentLength :=
  C2_compressed_send_sets_encoding_not_length ctxGz 200 [7] rfl rfl rfl rfl

/-- C3: on an uncommitted response whose caller already set a non-empty
`Content-Encoding`, `Send` skips negotiation and compression entirely
(whatever the request's accepted encodings, the negotiator and the gzip
switch, none of which the result depends on), commits with the given status
and writes the content bytes unmodified. -/
theorem C3_preset_encoding_skips_compression (ctx : Context) (status : Int)
    (content : List Nat)
    (h1 : ctx.W.committed = false)
    (h2 : ctx.W.headers.get HeaderContentEncoding ≠ "") :
    ∃ ctx1,
      Context.Send ctx status content = Except.ok ctx1
      ∧ ctx1.W.committed = true
      ∧ ctx1.W.status = status
      ∧ ctx1.W.headers = ctx.hook ctx.W.headers
      ∧ ctx1.W.wire
          = ctx.W.wire ++ [WireEvent.head status (ctx.hook ctx.W.headers),
              WireEvent.body content]
      ∧ ctx1.W.size = ctx.W.size + (content.length : Int) := by
  unfold Context.Send
  rw [h1]
  simp only [Bool.false_eq_true, if_false, if_neg h2]
  refine ⟨_, rfl, ?_, ?_, ?_, ?_, ?_⟩
  · simp [Response.Write, Response.WriteHeader, h1]
  · simp [Response.Write, Response.WriteHeader, h1]
  · simp [Response.Write, Response.WriteHeader, h1]
  · simp [Response.Write, Response.WriteHeader, h1]
  · simp [Response.Write, Response.WriteHeader, h1]

/-- Witness for C3 at a concrete context with caller-set encoding, an
accepting request and compression enabled. -/
theorem C3_preset_encoding_skips_compression_witness :
    ∃ ctx1,
      Context.Send
          { ctxGz with W := { ctxGz.W with
              headers := ctxGz.W.headers.set HeaderContentEncoding "br" } } 200 [9]
        = Except.ok ctx1
      ∧ ctx1.W.committed = true
      ∧ ctx1.W.status = 200
      ∧ ctx1.W.headers
          = ctxGz.hook (ctxGz.W.headers.set HeaderContentEncoding "br")
      ∧ ctx1.W.wire
          = ctxGz.W.wire
            ++ [WireEvent.head 200 (ctxGz.hook (ctxGz.W.headers.set HeaderContentEncoding "br")),
                WireEvent.body [9]]
      ∧ ctx1.W.size = ctxGz.W.size + ((9 : Nat) :: []).length := by
  have h := C3_preset_encoding_skips_compression
    { ctxGz with W := { ctxGz.W with
        headers := ctxGz.W.headers.set HeaderContentEncoding "br" } } 200 [9] rfl (by decide)
  exact h

/-- C4: on an uncommitted response where no compression applies (no
`Content-Encoding` set, and gzip disabled or the negotiator declining),
`Send` fills a missing `Content-Length` with the decimal byte length of the
content, leaves a caller-set `Content-Length` untouched, commits with the
given status and writes exactly the content bytes. -/
theorem C4_plain_send_sets_content_length (ctx : Context) (status : Int) (content : List Nat)
    (h1 : ctx.W.committed = false)
    (h2 : ctx.W.headers.get HeaderContentEncoding = "")
    (hgz : ctx.enableGzip = false ∨ (ctx.writeBody ctx.reqEncoding content).fst = false) :
    ∃ ctx1,
      Context.Send ctx status content = Except.ok ctx1
      ∧ ctx1.W.committed = true
      ∧ ctx1.W.status = status
      ∧ ctx1.W.headers
          = ctx.hook (if ctx.W.headers.get HeaderContentLength = "" then
              ctx.W.headers.set HeaderContentLength (toString content.length)
            else ctx.W.headers)
      ∧ ctx1.W.wire
          = ctx.W.wire
            ++ [WireEvent.head status (ctx.hook
                  (if ctx.W.headers.get HeaderContentLength = "" then
                    ctx.W.headers.set HeaderContentLength (toString content.length)
                  else ctx.W.headers)),
                WireEvent.body content]
      ∧ (ctx.W.headers.get HeaderContentLength = "" →
          (ctx.W.headers.set HeaderContentLength (toString content.length)).get
              HeaderContentLength
            = toString content.length)
      ∧ (ctx.W.headers.get HeaderContentLength ≠ "" →
          (if ctx.W.headers.get HeaderContentLength = "" then
              ctx.W.headers.set HeaderContentLength (toString content.length)
            else ctx.W.headers)
            = ctx.W.headers) := by
  unfold Context.Send
  rw [h1]
  simp only [Bool.false_eq_true, if_false, if_pos h2]
  have hnone :
      (if ctx.enableGzip then
        (if (ctx.writeBody ctx.reqEncoding content).fst then
          some (ctx.writeBody ctx.reqEncoding content).snd
        else none)
      else none) = (none : Option (String × List Nat)) := by
    rcases hgz with hg | hb
    · simp [hg]
    · simp [hb]
  rw [hnone]
  by_cases hcl : ctx.W.headers.get HeaderContentLength = ""
  · simp only [hcl, if_true, if_pos hcl]
    refine ⟨_, rfl, ?_, ?_, ?_, ?_, ?_, ?_⟩
    · simp [Response.Write, Response.WriteHeader, h1]
    · simp [Response.Write, Response.WriteHeader, h1]
    · simp [Response.Write, Response.WriteHeader, h1]
    · simp [Response.Write, Response.WriteHeader, h1]
    · intro _; exact HttpHeader.get_set_self _ _ _
    · intro hne; exact absurd rfl hne
  · simp only [hcl, if_neg hcl, if_false]
    refine ⟨_, rfl, ?_, ?_, ?_, ?_, ?_, ?_⟩
    · simp [Response.Write, Response.WriteHeader, h1]
    · simp [Response.Write, Response.WriteHeader, h1]
    · simp [Response.Write, Response.WriteHeader, h1]
    · simp [Response.Write, Response.WriteHeader, h1]
    · intro hc; exact hc.elim
    · intro _; trivial

/-- Witness for C4 at a concrete context with compression disabled and no
caller-set `Content-Length`. -/
theorem C4_plain_send_sets_content_length_witness :
    ∃ ctx1,
      Context.Send ctx0 200 [7, 8] = Except.ok ctx1
      ∧ ctx1.W.committed = true
      ∧ ctx1.W.status = 200
      ∧ ctx1.W.headers
          = ctx0.hook (if ctx0.W.headers.get HeaderContentLength = "" then
              ctx0.W.headers.set HeaderContentLength (toString ([7, 8] : List Nat).length)
            else ctx0.W.headers)
      ∧ ctx1.W.wire
          = ctx0.W.wire
            ++ [WireEvent.head 200 (ctx0.hook
                  (if ctx0.W.headers.get HeaderContentLength = "" then
                    ctx0.W.headers.set HeaderContentLength (toString ([7, 8] : List Nat).length)
                  else ctx0.W.headers)),
                WireEvent.body [7, 8]]
      ∧ (ctx0.W.headers.get HeaderContentLength = "" →
          (ctx0.W.headers.set HeaderContentLength (toString ([7, 8] : List Nat).length)).get
              HeaderContentLength
            = toString ([7, 8] : List Nat).length)
      ∧ (ctx0.W.headers.get HeaderContentLength ≠ "" →
          (if ctx0.W.headers.get HeaderContentLength = "" then
              ctx0.W.headers.set HeaderContentLength (toString ([7, 8] : List Nat).length)
            else ctx0.W.headers)
            = ctx0.W.headers) :=
  C4_plain_send_sets_content_length ctx0 200 [7, 8] rfl rfl (Or.inl rfl)

/-- C5 counterexample: with a path argument that is present but the empty
string, `SetCookie` emits no `Path` attribute at all, so the claimed default
`; Path=/` does not appear in the emitted cookie string. -/
theorem C5_path_default_counterexample :
    cookieString ctx0 "a" "b" [CookieAttr.int 0, CookieAttr.str ""] = "a=b"
    ∧ strContainsSub (cookieString ctx0 "a" "b" [CookieAttr.int 0, CookieAttr.str ""])
        "; Path=" = false := by
  constructor
  · decide
  · decide

/-- C5 (amended): the emitted cookie string carries `; Path=<sanitized v>`
when the second variadic argument is a non-empty string `v`, the default
`; Path=/` exactly when fewer than two variadic arguments are given, and no
`Path` attribute at all when a second argument is present but is an empty
string or not a string. -/
theorem C5_path_attribute_cases (ctx : Context) (name value : String)
    (others : List CookieAttr) :
    cookieString ctx name value others
      = sanitizeName name ++ "=" ++ sanitizeValue value ++ cookieMaxAgePart ctx others
        ++ cookiePathPart others ++ cookieDomainPart others ++ cookieSecurePart others
        ++ cookieHttpOnlyPart others
    ∧ (∀ v : String, others[1]? = some (CookieAttr.str v) → 0 < v.length →
        cookiePathPart others = "; Path=" ++ sanitizeValue v)
    ∧ (others.length ≤ 1 → cookiePathPart others = "; Path=/")
    ∧ (others[1]? = some (CookieAttr.str "") → cookiePathPart others = "")
    ∧ (∀ a : CookieAttr, others[1]? = some a → (∀ v : String, a ≠ CookieAttr.str v) →
        cookiePathPart others = "") := by
  refine ⟨rfl, ?_, ?_, ?_, ?_⟩
  · intro v hv hlen
    have hlt : 1 < others.length := by
      by_contra hle
      push_neg at hle
      rw [List.getElem?_eq_none (by omega)] at hv
      exact Option.noConfusion hv
    simp [cookiePathPart, hlt, hv, hlen]
  · intro hle
    have hlt : ¬(1 < others.length) := by omega
    simp [cookiePathPart, hlt]
  · intro hv
    have hlt : 1 < others.length := by
      by_contra hle
      push_neg at hle
      rw [List.getElem?_eq_none (by omega)] at hv
      exact Option.noConfusion hv
    simp [cookiePathPart, hlt, hv]
  · intro a hv hne
    have hlt : 1 < others.length := by
      by_contra hle
      push_neg at hle
      rw [List.getElem?_eq_none (by omega)] at hv
      exact Option.noConfusion hv
    cases a with
    | int n => simp [cookiePathPart, hlt, hv]
    | str v => exact absurd rfl (hne v)
    | bool b => simp [cookiePathPart, hlt, hv]
    | nil => simp [cookiePathPart, hlt, hv]
    | other => simp [cookiePathPart, hlt, hv]

/-- Witness for C5 (amended) at concrete argument lists for each case. -/
theorem C5_path_attribute_cases_witness :
    cookiePathPart [CookieAttr.int 3, CookieAttr.str "/x"] = "; Path=" ++ sanitizeValue "/x"
    ∧ cookiePathPart ([] : List CookieAttr) = "; Path=/"
    ∧ cookiePathPart [CookieAttr.int 0, CookieAttr.str ""] = ""
    ∧ cookiePathPart [CookieAttr.int 0, CookieAttr.int 5] = "" :=
  ⟨(C5_path_attribute_cases ctx0 "a" "b" [CookieAttr.int 3, CookieAttr.str "/x"]).2.1
      "/x" rfl (by decide),
   (C5_path_attribute_cases ctx0 "a" "b" ([] : List CookieAttr)).2.2.1 (by decide),
   (C5_path_attribute_cases ctx0 "a" "b" [CookieAttr.int 0, CookieAttr.str ""]).2.2.2.1 rfl,
   (C5_path_attribute_cases ctx0 "a" "b" [CookieAttr.int 0, CookieAttr.int 5]).2.2.2.2
      (CookieAttr.int 5) rfl (fun v h => CookieAttr.noConfusion h)⟩

/-- C6: the emitted cookie string starts with the sanitized `name=value`
pair; the sanitized name contains no raw CR or LF, the sanitized value
contains no raw CR, LF or semicolon, and sanitization of the value is
exactly the pointwise replacement of LF, CR and semicolon by a single
space. -/
theorem C6_cookie_sanitization (ctx : Context) (name value : String)
    (others : List CookieAttr) :
    (∃ rest, cookieString ctx name value others
        = sanitizeName name ++ ("=" ++ (sanitizeValue value ++ rest)))
    ∧ (∀ c, c ∈ (sanitizeName name).data → c ≠ '\r' ∧ c ≠ '\n')
    ∧ (∀ c, c ∈ (sanitizeValue value).data → c ≠ '\r' ∧ c ≠ '\n' ∧ c ≠ ';')
    ∧ (sanitizeValue value).data
        = value.data.map (fun c => if c = '\n' ∨ c = '\r' ∨ c = ';' then ' ' else c) := by
  have hdecomp : cookieString ctx name value others
      = sanitizeName name ++ ("=" ++ (sanitizeValue value
        ++ (cookieMaxAgePart ctx others ++ (cookiePathPart others
          ++ (cookieDomainPart others ++ (cookieSecurePart others
            ++ cookieHttpOnlyPart others)))))) := by
    unfold cookieString
    simp [String.append_assoc]
  refine ⟨⟨_, hdecomp⟩, ?_, ?_, rfl⟩
  · intro c hc
    have hc' : c ∈ name.data.map sanitizeNameChar := hc
    obtain ⟨a, _, rfl⟩ := List.mem_map.mp hc'
    unfold sanitizeNameChar
    by_cases hA : a = '\n' ∨ a = '\r'
    · rw [if_pos hA]
      exact ⟨by decide, by decide⟩
    · rw [if_neg hA]
      push_neg at hA
      exact ⟨hA.2, hA.1⟩
  · intro c hc
    have hc' : c ∈ value.data.map sanitizeValueChar := hc
    obtain ⟨a, _, rfl⟩ := List.mem_map.mp hc'
    unfold sanitizeValueChar
    by_cases hA : a = '\n' ∨ a = '\r' ∨ a = ';'
    · rw [if_pos hA]
      exact ⟨by decide, by decide, by decide⟩
    · rw [if_neg hA]
      push_neg at hA
      exact ⟨hA.2.1, hA.1, hA.2.2⟩

/-- Witness for C6 at a value containing a semicolon. -/
theorem C6_cookie_sanitization_witness :
    ((' ' : Char) ≠ '\r' ∧ (' ' : Char) ≠ '\n' ∧ (' ' : Char) ≠ ';')
    ∧ (sanitizeValue "x;y").data
        = "x;y".data.map (fun c => if c = '\n' ∨ c = '\r' ∨ c = ';' then ' ' else c) :=
  ⟨(C6_cookie_sanitization ctx0 "n" "x;y" []).2.2.1 ' ' (by decide),
   (C6_cookie_sanitization ctx0 "n" "x;y" []).2.2.2⟩

/-- C7: when JSON or XML marshaling fails, the serializer (`JSON`, `JSONP`,
`XML`) returns the marshal error itself; in this embedding an error return
carries no successor state, so the caller's response is left uncommitted
with no body bytes written, exactly as in the source, where the error
return precedes every header or body mutation. -/
theorem C7_marshal_error_propagates {α : Type} (ctx : Context) (jm xm : Marshaller α)
    (status : Int) (cb : String) (data : α) (e : String) :
    ((if ctx.runModeProd then jm.marshal data else jm.marshalIndent data "" "  ")
        = Except.error e →
      Context.JSON ctx jm status data = Except.error e)
    ∧ ((if ctx.runModeProd then jm.marshal data else jm.marshalIndent data "" "  ")
        = Except.error e →
      Context.JSONP ctx jm status cb data = Except.error e)
    ∧ ((if ctx.runModeProd then xm.marshal data else xm.marshalIndent data "" "  ")
        = Except.error e →
      Context.XML ctx xm status data = Except.error e) := by
  refine ⟨?_, ?_, ?_⟩
  · intro hm
    unfold Context.JSON
    rw [hm]
  · intro hm
    unfold Context.JSONP
    rw [hm]
  · intro hm
    unfold Context.XML
    rw [hm]

/-- Witness for C7 with a marshaling collaborator that fails. -/
theorem C7_marshal_error_propagates_witness :
    Context.JSON ctx0 mFail 200 0 = Except.error "boom"
    ∧ Context.JSONP ctx0 mFail 200 "cb" 0 = Except.error "boom"
    ∧ Context.XML ctx0 mFail 200 0 = Except.error "boom" := by
  have h := C7_marshal_error_propagates ctx0 mFail mFail 200 "cb" (0 : Nat) "boom"
  exact ⟨h.1 rfl, h.2.1 rfl, h.2.2 rfl⟩

/-- C8: `SetSecureCookie` passes to `SetCookie` exactly the string
`base64url(value) | timestamp | hex(hmacSha1(secret, base64url(value) ++
timestamp))` joined with pipes, where the timestamp is the decimal
nanosecond clock; the two closed conjuncts pin the concrete base64url and
lowercase-hex renderings of the embedding. -/
theorem C8_secure_cookie_format (ctx : Context) (secret name value : String)
    (others : List CookieAttr) :
    Context.SetSecureCookie ctx secret name value others
      = Context.SetCookie ctx name
          (base64URLEncode (utf8Encode value) ++ "|" ++ toString ctx.nowNano ++ "|"
            ++ hexDigest (ctx.hmacSha1 (utf8Encode secret)
                (utf8Encode (base64URLEncode (utf8Encode value) ++ toString ctx.nowNano))))
          others
    ∧ base64URLEncode (utf8Encode "hello") = "aGVsbG8="
    ∧ hexDigest [0, 26, 255] = "001aff" := by
  refine ⟨by rfl, by decide, by decide⟩

/-- C9: `JSONP` sets the JavaScript content type and sends a body that is
exactly a space, `if(window.<cb>)<cb>(`, the marshaled payload selected by
the run mode (indented with two spaces outside production, compact in
production, which is the hypothesis' selector), and `);` followed by CR LF,
with `<cb>` the JS-escaped callback. -/
theorem C9_jsonp_wrapper {α : Type} (ctx : Context) (jm : Marshaller α) (status : Int)
    (callback : String) (data : α) (b : List Nat)
    (hm : (if ctx.runModeProd then jm.marshal data else jm.marshalIndent data "" "  ")
        = Except.ok b) :
    Context.JSONP ctx jm status callback data
      = Context.Send
          { ctx with W := { ctx.W with
              headers := ctx.W.headers.set HeaderContentType
                MIMEApplicationJavaScriptCharsetUTF8 } }
          status
          (utf8Encode (" if(window." ++ ctx.jsEscape callback ++ ")"
              ++ ctx.jsEscape callback ++ "(")
            ++ b ++ utf8Encode (");\r\n")) := by
  unfold Context.JSONP
  rw [hm]

/-- Witness for C9 with a marshaling collaborator producing one byte. -/
theorem C9_jsonp_wrapper_witness :
    Context.JSONP ctx0 mOk 200 "cb" 0
      = Context.Send
          { ctx0 with W := { ctx0.W with
              headers := ctx0.W.headers.set HeaderContentType
                MIMEApplicationJavaScriptCharsetUTF8 } }
          200
          (utf8Encode (" if(window." ++ ctx0.jsEscape "cb" ++ ")"
              ++ ctx0.jsEscape "cb" ++ "(")
            ++ [49] ++ utf8Encode (");\r\n")) :=
  C9_jsonp_wrapper ctx0 mOk 200 "cb" 0 [49] rfl

theorem setCookie_preserves_cookieString (ctx : Context) (n v : String)
    (o : List CookieAttr) (x y : String) (z : List CookieAttr) :
    cookieString (Context.SetCookie ctx n v o) x y z = cookieString ctx x y z := rfl

theorem setCookie_foldl_getAll (ctx : Context)
    (cs : List (String × String × List CookieAttr)) :
    (List.foldl (fun c p => Context.SetCookie c p.fst p.snd.fst p.snd.snd) ctx cs).W.headers.getAll
        HeaderSetCookie
      = ctx.W.headers.getAll HeaderSetCookie
        ++ cs.map (fun p => cookieString ctx p.fst p.snd.fst p.snd.snd) := by
  induction cs generalizing ctx with
  | nil => simp
  | cons p t ih =>
    simp only [List.foldl_cons, List.map_cons]
    rw [ih (Context.SetCookie ctx p.fst p.snd.fst p.snd.snd)]
    have hmap : (fun q : String × String × List CookieAttr =>
          cookieString (Context.SetCookie ctx p.fst p.snd.fst p.snd.snd) q.fst q.snd.fst q.snd.snd)
        = (fun q : String × String × List CookieAttr =>
          cookieString ctx q.fst q.snd.fst q.snd.snd) := by
      funext q
      exact setCookie_preserves_cookieString ctx p.fst p.snd.fst p.snd.snd q.fst q.snd.fst q.snd.snd
    rw [hmap]
    have h1 : (Context.SetCookie ctx p.fst p.snd.fst p.snd.snd).W.headers.getAll HeaderSetCookie
        = ctx.W.headers.getAll HeaderSetCookie
          ++ [cookieString ctx p.fst p.snd.fst p.snd.snd] := by
      simp [Context.SetCookie, HttpHeader.getAll_add_self]
    rw [h1, List.append_assoc]
    rfl

/-- C10: `Context.SetCookie` appends its constructed cookie string as one
more `Set-Cookie` value, leaving previous `Set-Cookie` values and every
other header untouched, so a sequence of calls accumulates one value per
call; `SetSecureCookie` goes through `SetCookie`; by contrast the
`Response`-level `SetCookie` replaces all values and `DelCookie` removes
them, while `Response.AddCookie` also appends. -/
theorem C10_set_cookie_accumulates (ctx : Context) (resp : Response) (name value : String)
    (others : List CookieAttr) (s secret : String)
    (cs : List (String × String × List CookieAttr)) :
    (Context.SetCookie ctx name value others).W.headers.getAll HeaderSetCookie
        = ctx.W.headers.getAll HeaderSetCookie ++ [cookieString ctx name value others]
    ∧ (∀ k, k ≠ HeaderSetCookie →
        (Context.SetCookie ctx name value others).W.headers.getAll k
          = ctx.W.headers.getAll k)
    ∧ (List.foldl (fun c p => Context.SetCookie c p.fst p.snd.fst p.snd.snd) ctx cs).W.headers.getAll
          HeaderSetCookie
        = ctx.W.headers.getAll HeaderSetCookie
          ++ cs.map (fun p => cookieString ctx p.fst p.snd.fst p.snd.snd)
    ∧ (∃ cv, Context.SetSecureCookie ctx secret name value others
        = Context.SetCookie ctx name cv others)
    ∧ (Response.SetCookie resp s).headers.getAll HeaderSetCookie = [s]
    ∧ (Response.DelCookie resp).headers.getAll HeaderSetCookie = []
    ∧ (Response.AddCookie resp s).headers.getAll HeaderSetCookie
        = resp.headers.getAll HeaderSetCookie ++ [s] := by
  refine ⟨?_, ?_, setCookie_foldl_getAll ctx cs, ?_, ?_, ?_, ?_⟩
  · simp [Context.SetCookie, HttpHeader.getAll_add_self]
  · intro k hk
    simp [Context.SetCookie, HttpHeader.getAll_add_ne _ _ _ _ hk]
  · exact ⟨base64URLEncode (utf8Encode value) ++ "|" ++ toString ctx.nowNano ++ "|"
      ++ hexDigest (ctx.hmacSha1 (utf8Encode secret)
        (utf8Encode (base64URLEncode (utf8Encode value) ++ toString ctx.nowNano))), by rfl⟩
  · simp [Response.SetCookie, HttpHeader.getAll_set_self]
  · simp [Response.DelCookie, HttpHeader.getAll_del_self]
  · simp [Response.AddCookie, HttpHeader.getAll_add_self]

/-- Witness for C10 at a concrete context, including the frame condition on
an unrelated header key. -/
theorem C10_set_cookie_accumulates_witness :
    (Context.SetCookie ctx0 "a" "b" []).W.headers.getAll HeaderSetCookie
        = ctx0.W.headers.getAll HeaderSetCookie ++ [cookieString ctx0 "a" "b" []]
    ∧ (Context.SetCookie ctx0 "a" "b" []).W.headers.getAll HeaderContentType
        = ctx0.W.headers.getAll HeaderContentType := by
  have h := C10_set_cookie_accumulates ctx0 respEmpty "a" "b" [] "s" "sec" []
  exact ⟨h.1, h.2.1 HeaderContentType (by decide)⟩
